import Mathlib

/-!
Verification development for the YOLO-APD trajectory-analytics core
(`ultralytics/solutions/heatmap.py` and
`ultralytics/solutions/speed_estimation.py`).

The per-frame engine is embedded shallowly: Python dicts become
association lists, numpy/float arithmetic becomes exact `ℚ` arithmetic,
the heatmap buffer becomes a list-of-lists matrix, and code paths that
raise Python exceptions return an explicit error value alongside the
state mutated up to the raise point (Python mutations performed before an
exception persist, so the model returns `State × Option Err` rather than
`Except`).

Geometric predicates supplied by the external `shapely` library
(`LineString.intersects`, `Polygon.contains`, `centroid`) are modelled
from shapely's documented exact-geometry semantics: segment intersection
counts touching configurations, polygon containment is the even-odd
interior test, a polygon centroid is the area-weighted centroid and a
two-point line's centroid is its midpoint.
-/

namespace YoloAPD

/-- A 2-D point with exact rational coordinates (models the Python float pairs). -/
abbrev Pt := ℚ × ℚ

/-- An `xyxy` bounding box, as delivered by `tracks[0].boxes.xyxy`. -/
structure Box where
  x1 : ℚ
  y1 : ℚ
  x2 : ℚ
  y2 : ℚ
deriving DecidableEq

/-! ### Association lists: the model of Python `dict`

`alSet` replaces the first binding of the key, else appends — exactly a
Python dict's update-in-place/insertion-order semantics for the
unique-key lists built here. -/

/-- Python `d.get(k)` / `d[k]`-with-presence-check: first binding of `k`, if any. -/
def alGet {α β : Type} [DecidableEq α] : List (α × β) → α → Option β
  | [], _ => none
  | p :: m, k => if p.1 = k then some p.2 else alGet m k

/-- Python `d[k] = v`: replace the first binding of `k`, else append a new one. -/
def alSet {α β : Type} [DecidableEq α] : List (α × β) → α → β → List (α × β)
  | [], k, v => [(k, v)]
  | p :: m, k, v => if p.1 = k then (k, v) :: m else p :: alSet m k v

theorem alGet_alSet_self {α β : Type} [DecidableEq α] (m : List (α × β)) (k : α) (v : β) :
    alGet (alSet m k v) k = some v := by
  induction m with
  | nil => simp [alGet, alSet]
  | cons p m ih =>
    by_cases h : p.1 = k
    · simp [alGet, alSet, h]
    · simp [alGet, alSet, h, ih]

theorem alGet_alSet_ne {α β : Type} [DecidableEq α] (m : List (α × β)) (k k' : α) (v : β)
    (h : k' ≠ k) : alGet (alSet m k v) k' = alGet m k' := by
  induction m with
  | nil => simp [alGet, alSet, Ne.symm h]
  | cons p m ih =>
    by_cases hp : p.1 = k
    · simp [alGet, alSet, hp, Ne.symm h]
    · simp [alGet, alSet, hp, ih]

/-! ### Track history (heatmap.py lines 133-137, speed_estimation.py lines 100-103)

`track_line.append(center); if len(track_line) > 30: track_line.pop(0)` -/

/-- One history update: append the new centroid, then drop the oldest
entry when the length exceeds 30. -/
def updateHistory (l : List Pt) (c : Pt) : List Pt :=
  let l2 := l ++ [c]
  if l2.length > 30 then l2.tail else l2

theorem updateHistory_getLast (l : List Pt) (c : Pt) :
    (updateHistory l c).getLast? = some c := by
  unfold updateHistory
  by_cases h : (l ++ [c]).length > 30
  · rw [if_pos h]
    cases l with
    | nil => simp at h
    | cons a t => simp [List.getLast?_concat]
  · rw [if_neg h]
    simp [List.getLast?_concat]

/-! ### Geometry (models of the shapely predicates used by heatmap.py) -/

/-- Cross product of `a - o` and `b - o`: the orientation of the triple. -/
def cross (o a b : Pt) : ℚ :=
  (a.1 - o.1) * (b.2 - o.2) - (a.2 - o.2) * (b.1 - o.1)

/-- Sign of a rational, as `-1`, `0` or `1`. -/
def sgn (x : ℚ) : ℤ :=
  if 0 < x then 1 else if x < 0 then -1 else 0

/-- Whether `r`, assumed collinear with segment `p`-`q`, lies within its
bounding box (the on-segment test of the classical intersection algorithm). -/
def onSeg (p q r : Pt) : Bool :=
  decide (min p.1 q.1 ≤ r.1 ∧ r.1 ≤ max p.1 q.1 ∧
          min p.2 q.2 ≤ r.2 ∧ r.2 ≤ max p.2 q.2)

/-- Models `LineString([p1, q1]).intersects(LineString([p2, q2]))` of
shapely: proper crossings and all touching/collinear-overlap
configurations count as intersecting. -/
def segIntersects (p1 q1 p2 q2 : Pt) : Bool :=
  let o1 := sgn (cross p1 q1 p2)
  let o2 := sgn (cross p1 q1 q2)
  let o3 := sgn (cross p2 q2 p1)
  let o4 := sgn (cross p2 q2 q1)
  (decide (o1 ≠ o2) && decide (o3 ≠ o4)) ||
    (decide (o1 = 0) && onSeg p1 q1 p2) ||
    (decide (o2 = 0) && onSeg p1 q1 q2) ||
    (decide (o3 = 0) && onSeg p2 q2 p1) ||
    (decide (o4 = 0) && onSeg p2 q2 q1)

/-- One edge's contribution to the even-odd ray-casting test. -/
def pipCross (p : Pt) (e : Pt × Pt) : Bool :=
  let a := e.1
  let b := e.2
  (decide (p.2 < a.2) != decide (p.2 < b.2)) &&
    decide (p.1 < (b.1 - a.1) * (p.2 - a.2) / (b.2 - a.2) + a.1)

/-- Models shapely `Polygon(pts).contains(Point(p))`: even-odd
ray-casting over the cyclic edge list (used in this development only at
points strictly interior or exterior to the polygon, where every
containment convention agrees). -/
def pointInPoly (poly : List Pt) (p : Pt) : Bool :=
  ((poly.zip (poly.rotate 1)).map (pipCross p)).foldl (fun acc c => acc != c) false

/-- Twice the signed area of a polygon (shoelace sum over cyclic edges). -/
def shoelace (poly : List Pt) : ℚ :=
  ((poly.zip (poly.rotate 1)).map (fun e => e.1.1 * e.2.2 - e.2.1 * e.1.2)).sum

/-- Models `Polygon(pts).centroid.x` of shapely: the area-weighted
centroid's x-coordinate. -/
def polyCentroidX (poly : List Pt) : ℚ :=
  ((poly.zip (poly.rotate 1)).map
      (fun e => (e.1.1 + e.2.1) * (e.1.1 * e.2.2 - e.2.1 * e.1.2))).sum
    / (3 * shoelace poly)

/-- Source `self.counting_region.centroid.x`: the area centroid for a polygon
region (≥ 3 points), the midpoint of the two endpoints for a line region
(shapely's centroid of a two-point `LineString`). -/
def regionCentroidX (pts : List Pt) : ℚ :=
  if 3 ≤ pts.length then polyCentroidX pts
  else ((pts.getD 0 (0, 0)).1 + (pts.getD 1 (0, 0)).1) / 2

/-! ### Heatmap engine state (heatmap.py, class `Heatmap`) -/

/-- The mutable fields of a `Heatmap` instance that the per-frame logic
touches (visual-only fields such as `annotator`, `colormap`,
`heatmap_alpha` and the imshow flags are pure rendering and carry no
analytics state). `classWise` maps a class name to its `(IN, OUT)` pair. -/
structure HeatState where
  initialized : Bool
  heatmap : List (List ℚ)
  decayFactor : ℚ
  countRegPts : Option (List Pt)
  trackHistory : List (ℤ × List Pt)
  inCounts : ℕ
  outCounts : ℕ
  countIds : List ℤ
  classWise : List (String × ℕ × ℕ)

/-- Errors a `Heatmap` call can raise in Python. -/
inductive HeatErr where
  /-- shapely refuses `LineString` built from exactly one coordinate. -/
  | lineStringOnePoint
  /-- `zip(None, None)` in the no-track branch (`boxes`/`clss` were never
  assigned because `tracks[0].boxes.id` was `None`). -/
  | typeError
deriving DecidableEq

/-- Models shapely `LineString(pts)` construction: an empty coordinate
list builds an empty geometry, a single coordinate raises
(`LineStrings must have at least 2 coordinate tuples`), two or more
succeed. -/
def mkLineString (pts : List Pt) : Except HeatErr (List Pt) :=
  match pts with
  | [_] => .error .lineStringOnePoint
  | _ => .ok pts

/-- Constructor `Heatmap.__init__` (heatmap.py lines 19-85), restricted to the
analytics fields: region selection either builds a `LineString` (2
points), a `Polygon` (≥ 3 points), or — after printing the invalid-region
warning — still builds a `LineString` from the given points, which raises
for exactly one point. -/
def heatmapInit (countRegPts : Option (List Pt)) (decayFactor : ℚ) :
    Except HeatErr HeatState :=
  let base : HeatState :=
    { initialized := false, heatmap := [], decayFactor := decayFactor,
      countRegPts := countRegPts, trackHistory := [],
      inCounts := 0, outCounts := 0, countIds := [], classWise := [] }
  match countRegPts with
  | none => .ok base
  | some pts =>
    if pts.length = 2 then (mkLineString pts).map (fun _ => base)
    else if 3 ≤ pts.length then .ok base
    else (mkLineString pts).map (fun _ => base)

/-! ### Heatmap buffer operations -/

/-- Buffer allocation `np.zeros((rows, cols), dtype=np.float32)`. -/
def zerosBuf (rows cols : ℕ) : List (List ℚ) :=
  List.replicate rows (List.replicate cols 0)

/-- Decay `self.heatmap *= self.decay_factor` (heatmap.py line 102). -/
def decayBuffer (b : List (List ℚ)) (d : ℚ) : List (List ℚ) :=
  b.map (List.map (· * d))

/-- The per-box disk accumulation (heatmap.py lines 123-131): add `+2`
to every cell inside the box's rectangle whose distance to the box
center is at most `radius = min(width, height) // 2`. Python's `int()`
is modelled by `Int.floor` (box coordinates are non-negative pixel
coordinates, where truncation and floor agree), `//` by `Int.fdiv`. -/
def diskAdd (b : List (List ℚ)) (box : Box) : List (List ℚ) :=
  let cx : ℤ := ⌊(box.x1 + box.x2) / 2⌋
  let cy : ℤ := ⌊(box.y1 + box.y2) / 2⌋
  let r : ℤ := Int.fdiv (min (⌊box.x2⌋ - ⌊box.x1⌋) (⌊box.y2⌋ - ⌊box.y1⌋)) 2
  b.enum.map fun yrow =>
    yrow.2.enum.map fun xv =>
      if ⌊box.y1⌋ ≤ (yrow.1 : ℤ) ∧ (yrow.1 : ℤ) < ⌊box.y2⌋ ∧
         ⌊box.x1⌋ ≤ (xv.1 : ℤ) ∧ (xv.1 : ℤ) < ⌊box.x2⌋ ∧
         ((xv.1 : ℤ) - cx) ^ 2 + ((yrow.1 : ℤ) - cy) ^ 2 ≤ r ^ 2
      then xv.2 + 2 else xv.2

/-! ### Per-detection bookkeeping (heatmap.py lines 118-174) -/

/-- Lines 120-121: create the `{"IN": 0, "OUT": 0}` bucket for a class
name on first observation. -/
def classInit (cw : List (String × ℕ × ℕ)) (name : String) :
    List (String × ℕ × ℕ) :=
  if (alGet cw name).isSome then cw else cw ++ [(name, (0, 0))]

/-- Increment `self.class_wise_count[name]["IN"] += 1` (the bucket exists, having
been created by `classInit` earlier in the same loop body). -/
def bumpIn (cw : List (String × ℕ × ℕ)) (name : String) :
    List (String × ℕ × ℕ) :=
  match alGet cw name with
  | some io => alSet cw name (io.1 + 1, io.2)
  | none => cw

/-- Increment `self.class_wise_count[name]["OUT"] += 1`. -/
def bumpOut (cw : List (String × ℕ × ℕ)) (name : String) :
    List (String × ℕ × ℕ) :=
  match alGet cw name with
  | some io => alSet cw name (io.1, io.2 + 1)
  | none => cw

/-- The `(IN, OUT)` counters recorded for a class name (`(0, 0)` when the
bucket does not exist yet). -/
def classCounts (cw : List (String × ℕ × ℕ)) (name : String) : ℕ × ℕ :=
  (alGet cw name).getD (0, 0)

/-- Access `self.track_history[track_id]` — a `defaultdict(list)` access. -/
def histOf (s : HeatState) (tid : ℤ) : List Pt :=
  (alGet s.trackHistory tid).getD []

/-- The float box centroid appended to the track history
(line 135: `(float((box[0] + box[2]) / 2), float((box[1] + box[3]) / 2))`). -/
def boxCenterF (box : Box) : Pt :=
  ((box.x1 + box.x2) / 2, (box.y1 + box.y2) / 2)

/-- Line 139: `self.track_history[track_id][-2] if len(...) > 1 else None`,
evaluated on the history as it stands after this frame's append/evict. -/
def prevPosition (s : HeatState) (box : Box) (tid : ℤ) : Option Pt :=
  let hist := updateHistory (histOf s tid) (boxCenterF box)
  if 1 < hist.length then hist.get? (hist.length - 2) else none

/-- Lines 133-174: update the track history, then run the counting logic
(polygon containment or line-segment intersection, direction by the
x-axis sign rule, at-most-once per track id). -/
def countStep (s : HeatState) (box : Box) (clsName : String) (tid : ℤ) :
    HeatState :=
  let hist := updateHistory (histOf s tid) (boxCenterF box)
  let s1 := { s with trackHistory := alSet s.trackHistory tid hist }
  match s.countRegPts with
  | none => s1
  | some pts =>
    if 3 ≤ pts.length then
      -- lines 143-154: polygon mode
      match prevPosition s box tid with
      | none => s1
      | some prev =>
        if pointInPoly pts (hist.getLast?.getD (0, 0)) = true ∧
           tid ∉ s1.countIds then
          let s2 := { s1 with countIds := s1.countIds ++ [tid] }
          if 0 < (box.x1 - prev.1) * (regionCentroidX pts - prev.1) then
            { s2 with inCounts := s2.inCounts + 1,
                      classWise := bumpIn s2.classWise clsName }
          else
            { s2 with outCounts := s2.outCounts + 1,
                      classWise := bumpOut s2.classWise clsName }
        else s1
    else
      -- lines 157-174: line mode (exactly two region points)
      match pts with
      | [p0, p1] =>
        match prevPosition s box tid with
        | none => s1
        | some prev =>
          if tid ∉ s1.countIds then
            if segIntersects prev (box.x1, box.y1) p0 p1 = true then
              let s2 := { s1 with countIds := s1.countIds ++ [tid] }
              if 0 < (box.x1 - prev.1) * (regionCentroidX pts - prev.1) then
                { s2 with inCounts := s2.inCounts + 1,
                          classWise := bumpIn s2.classWise clsName }
              else
                { s2 with outCounts := s2.outCounts + 1,
                          classWise := bumpOut s2.classWise clsName }
            else s1
          else s1
      | _ => s1

/-- The whole loop body of lines 118-174 for one detection: class-bucket
creation, disk accumulation into the buffer, then history/counting. -/
def detStep (s : HeatState) (box : Box) (clsName : String) (tid : ℤ) :
    HeatState :=
  let sa := { s with classWise := classInit s.classWise clsName }
  let sb := { sa with heatmap := diskAdd sa.heatmap box }
  countStep sb box clsName tid

/-- Entry point `Heatmap.generate_heatmap` (heatmap.py lines 87-208). A detection is
`(box, class name, track id)`; `dets = none` models
`tracks[0].boxes.id is None` (in which case `boxes`, `clss` and
`track_ids` all stay `None`). The final normalize/colormap/blend stage
(lines 197-200) renders the returned image and does not mutate the
buffer. With no ids, the `else` branch's `for box, cls in zip(boxes, clss)`
iterates over `zip(None, None)` and raises `TypeError`; the decay at line
102 has already mutated the buffer by then. -/
def generateHeatmap (s : HeatState) (rows cols : ℕ)
    (dets : Option (List (Box × String × ℤ))) :
    HeatState × Option HeatErr :=
  let s0 := if s.initialized then s
            else { s with heatmap := zerosBuf rows cols, initialized := true }
  let s1 := { s0 with heatmap := decayBuffer s0.heatmap s0.decayFactor }
  match dets with
  | none => (s1, some .typeError)
  | some l =>
    if l.isEmpty then
      -- `if track_ids:` is false for an empty list; the else branch zips
      -- an empty box tensor with an empty class list: no iterations.
      (s1, none)
    else
      (l.foldl (fun acc d => detStep acc d.1 d.2.1 d.2.2) s1, none)

/-! ### Speed estimator state (speed_estimation.py, class `SpeedEstimator`) -/

/-- The mutable analytics fields of a `SpeedEstimator` instance
(`view_img`, `tf`, `names` and the imshow flag are rendering-only).
Times are exact rationals standing for the wall-clock seconds `time()`
returns. -/
structure SpeedState where
  regPts : List Pt
  spdl : ℚ
  trkHistory : List (ℤ × List Pt)
  spd : List (ℤ × ℚ)
  trkdIds : List ℤ
  trkPt : List (ℤ × ℚ)
  trkPp : List (ℤ × Pt)

/-- Errors a `SpeedEstimator` call can raise in Python. -/
inductive SpeedErr where
  /-- `track[-1]` on an empty track list. -/
  | indexError
  /-- `self.trk_pt[trk_id]` at line 68 with no binding for `trk_id`. -/
  | keyErrorTrkPt
  /-- `self.trk_pp[trk_id]` at line 70 with no binding for `trk_id`. -/
  | keyErrorTrkPp
  /-- `track = self.trk_history[track_id]` at line 98: the name
  `track_id` is not defined (the loop binds `trk_id`). -/
  | nameErrorTrackId
deriving DecidableEq

/-- Constructor `SpeedEstimator.__init__` with the default region
`[(20, 400), (1260, 400)]` and `spdl_dist_thresh=10`. -/
def speedEstimatorInit : SpeedState :=
  { regPts := [(20, 400), (1260, 400)], spdl := 10, trkHistory := [],
    spd := [], trkdIds := [], trkPt := [], trkPp := [] }

/-- Line 56: `self.reg_pts[0][0] < track[-1][0] < self.reg_pts[1][0]`. -/
def inXInterval (p0 p1 last : Pt) : Prop :=
  p0.1 < last.1 ∧ last.1 < p1.1

/-- Lines 58-63: `direction = "known"` iff the latest y-coordinate lies
within `±spdl` of either region point's y-coordinate. -/
def dirKnown (p0 p1 : Pt) (spdl : ℚ) (last : Pt) : Prop :=
  (p1.2 - spdl < last.2 ∧ last.2 < p1.2 + spdl) ∨
  (p0.2 - spdl < last.2 ∧ last.2 < p0.2 + spdl)

instance (p0 p1 last : Pt) : Decidable (inXInterval p0 p1 last) := by
  unfold inXInterval; infer_instance

instance (p0 p1 : Pt) (spdl : ℚ) (last : Pt) : Decidable (dirKnown p0 p1 spdl last) := by
  unfold dirKnown; infer_instance

/-- Method `SpeedEstimator.calculate_speed` (speed_estimation.py lines 48-73),
called with the current wall-clock time `now` (both `time()` calls in one
invocation return the same instant in this model). Returns the state as
mutated up to a possible raise point, plus the raised error if any.
Mirrors the source order: the early x-interval return (line 56), the band
test (lines 58-63), the guard
`trk_pt.get(trk_id) != 0 and direction != "unknown" and trk_id not in trkd_ids`
(line 65), the append to `trkd_ids` (line 66) which precedes both the
`trk_pt[trk_id]` read (line 68) and the `Δt > 0` test (line 69), and the
unconditional refresh of `trk_pt`/`trk_pp` (lines 72-73). -/
def calculateSpeed (s : SpeedState) (tid : ℤ) (track : List Pt) (now : ℚ) :
    SpeedState × Option SpeedErr :=
  match track.getLast? with
  | none => (s, some .indexError)
  | some last =>
    match s.regPts with
    | p0 :: p1 :: _ =>
      if ¬ inXInterval p0 p1 last then (s, none)
      else
        if alGet s.trkPt tid ≠ some 0 ∧ dirKnown p0 p1 s.spdl last ∧
           tid ∉ s.trkdIds then
          let s1 := { s with trkdIds := s.trkdIds ++ [tid] }
          match alGet s1.trkPt tid with
          | none => (s1, some .keyErrorTrkPt)
          | some t0 =>
            if 0 < now - t0 then
              match alGet s1.trkPp tid with
              | none => (s1, some .keyErrorTrkPp)
              | some pp =>
                let s2 := { s1 with
                  spd := alSet s1.spd tid (|last.2 - pp.2| / (now - t0)) }
                ({ s2 with trkPt := alSet s2.trkPt tid now,
                           trkPp := alSet s2.trkPp tid last }, none)
            else
              ({ s1 with trkPt := alSet s1.trkPt tid now,
                         trkPp := alSet s1.trkPp tid last }, none)
        else
          ({ s with trkPt := alSet s.trkPt tid now,
                    trkPp := alSet s.trkPp tid last }, none)
    | _ => (s, some .indexError)

/-- Entry point `SpeedEstimator.estimate_speed` (speed_estimation.py lines 75-123).
With `tracks[0].boxes.id is None` the call returns the image untouched
(line 86-89). Otherwise the per-detection loop's first statement,
`track = self.trk_history[track_id]` (line 98), references the undefined
name `track_id` — the loop variable is `trk_id` — so the first iteration
raises `NameError` before any state is touched; with ≥ 1 detection the
call therefore never reaches the drawing or `calculate_speed` lines. -/
def estimateSpeed (s : SpeedState) (dets : Option (List (Box × String × ℤ))) :
    SpeedState × Option SpeedErr :=
  match dets with
  | none => (s, none)
  | some l =>
    match l with
    | [] => (s, none)
    | _ :: _ => (s, some .nameErrorTrackId)

/-! ### Helper lemmas -/

theorem alGet_append_single {α β : Type} [DecidableEq α] (m : List (α × β))
    (k k' : α) (v : β) :
    alGet (m ++ [(k, v)]) k' =
      match alGet m k' with
      | some w => some w
      | none => if k = k' then some v else none := by
  induction m with
  | nil => simp [alGet]
  | cons p m ih =>
    by_cases hp : p.1 = k'
    · simp [alGet, hp]
    · simp [alGet, hp, ih]

theorem classCounts_classInit (cw : List (String × ℕ × ℕ)) (c n : String) :
    classCounts (classInit cw c) n = classCounts cw n := by
  unfold classInit
  by_cases h : (alGet cw c).isSome
  · rw [if_pos h]
  · rw [if_neg h]
    unfold classCounts
    rw [alGet_append_single]
    cases hn : alGet cw n with
    | some w => simp
    | none =>
      by_cases hc : c = n
      · simp [hc]
      · simp [hc]

theorem alGet_classInit_self (cw : List (String × ℕ × ℕ)) (c : String) :
    alGet (classInit cw c) c = some (classCounts cw c) := by
  unfold classInit classCounts
  cases h : alGet cw c with
  | some w => simp [h]
  | none =>
    simp only [h, Option.isSome_none, Bool.false_eq_true, if_false,
      Option.getD_none]
    rw [alGet_append_single, h]
    simp

theorem classCounts_bumpIn (cw : List (String × ℕ × ℕ)) (c : String)
    (io : ℕ × ℕ) (h : alGet cw c = some io) :
    classCounts (bumpIn cw c) c = (io.1 + 1, io.2) := by
  unfold bumpIn classCounts
  rw [h, alGet_alSet_self]
  rfl

theorem classCounts_bumpOut (cw : List (String × ℕ × ℕ)) (c : String)
    (io : ℕ × ℕ) (h : alGet cw c = some io) :
    classCounts (bumpOut cw c) c = (io.1, io.2 + 1) := by
  unfold bumpOut classCounts
  rw [h, alGet_alSet_self]
  rfl

/-- Unfolding lemma: `detStep` is `countStep` after the class-bucket creation and the disk
accumulation have been folded into the state. -/
theorem detStep_eq (s : HeatState) (box : Box) (c : String) (tid : ℤ) :
    detStep s box c tid =
      countStep { s with classWise := classInit s.classWise c,
                         heatmap := diskAdd s.heatmap box } box c tid := rfl

/-- Shape of one `calculate_speed` call: the `spd` map is either
untouched or written once at `tid` — and only when `tid` was not yet
finalized, in which case `tid` is simultaneously appended to
`trkd_ids`; `trkd_ids` itself only ever grows by `[tid]`. -/
theorem calculateSpeed_shape (s : SpeedState) (tid : ℤ) (track : List Pt)
    (now : ℚ) :
    ((calculateSpeed s tid track now).1.spd = s.spd ∨
      (tid ∉ s.trkdIds ∧
       (calculateSpeed s tid track now).1.trkdIds = s.trkdIds ++ [tid] ∧
       ∃ w, (calculateSpeed s tid track now).1.spd = alSet s.spd tid w)) ∧
    ((calculateSpeed s tid track now).1.trkdIds = s.trkdIds ∨
      (calculateSpeed s tid track now).1.trkdIds = s.trkdIds ++ [tid]) := by
  unfold calculateSpeed
  cases htr : track.getLast? with
  | none => exact ⟨Or.inl rfl, Or.inl rfl⟩
  | some last =>
    cases hreg : s.regPts with
    | nil => exact ⟨Or.inl rfl, Or.inl rfl⟩
    | cons p0 rest =>
      cases rest with
      | nil => exact ⟨Or.inl rfl, Or.inl rfl⟩
      | cons p1 rest2 =>
        dsimp only
        by_cases hx : inXInterval p0 p1 last
        · rw [if_neg (not_not_intro hx)]
          by_cases hg : alGet s.trkPt tid ≠ some 0 ∧ dirKnown p0 p1 s.spdl last ∧
              tid ∉ s.trkdIds
          · rw [if_pos hg]
            cases hpt : alGet s.trkPt tid with
            | none => exact ⟨Or.inl rfl, Or.inr rfl⟩
            | some t0 =>
              dsimp only
              by_cases hdt : 0 < now - t0
              · rw [if_pos hdt]
                cases hpp : alGet s.trkPp tid with
                | none => exact ⟨Or.inl rfl, Or.inr rfl⟩
                | some pp =>
                  exact ⟨Or.inr ⟨hg.2.2, rfl, _, rfl⟩, Or.inr rfl⟩
              · rw [if_neg hdt]
                exact ⟨Or.inl rfl, Or.inr rfl⟩
          · rw [if_neg hg]
            exact ⟨Or.inl rfl, Or.inl rfl⟩
        · rw [if_pos hx]
          exact ⟨Or.inl rfl, Or.inl rfl⟩

/-- Shape of one `countStep`: either none of the counting state changes,
or — only when `tid` was not yet counted — `tid` is appended to
`count_ids` exactly once. -/
theorem countStep_counts_shape (s : HeatState) (box : Box) (clsName : String)
    (tid : ℤ) :
    ((countStep s box clsName tid).inCounts = s.inCounts ∧
     (countStep s box clsName tid).outCounts = s.outCounts ∧
     (countStep s box clsName tid).classWise = s.classWise ∧
     (countStep s box clsName tid).countIds = s.countIds) ∨
    (tid ∉ s.countIds ∧
     (countStep s box clsName tid).countIds = s.countIds ++ [tid]) := by
  unfold countStep
  dsimp only
  cases hr : s.countRegPts with
  | none => exact Or.inl ⟨rfl, rfl, rfl, rfl⟩
  | some pts =>
    dsimp only
    split
    · cases hp : prevPosition s box tid with
      | none => exact Or.inl ⟨rfl, rfl, rfl, rfl⟩
      | some prev =>
        dsimp only
        split
        · next hcond =>
          split
          · exact Or.inr ⟨hcond.2, rfl⟩
          · exact Or.inr ⟨hcond.2, rfl⟩
        · exact Or.inl ⟨rfl, rfl, rfl, rfl⟩
    · cases pts with
      | nil => exact Or.inl ⟨rfl, rfl, rfl, rfl⟩
      | cons p0 t =>
        cases t with
        | nil => exact Or.inl ⟨rfl, rfl, rfl, rfl⟩
        | cons p1 t2 =>
          cases t2 with
          | cons p2 t3 => exact Or.inl ⟨rfl, rfl, rfl, rfl⟩
          | nil =>
            cases hp : prevPosition s box tid with
            | none => exact Or.inl ⟨rfl, rfl, rfl, rfl⟩
            | some prev =>
              dsimp only
              split
              · next hnotin =>
                split
                · split
                  · exact Or.inr ⟨hnotin, rfl⟩
                  · exact Or.inr ⟨hnotin, rfl⟩
                · exact Or.inl ⟨rfl, rfl, rfl, rfl⟩
              · exact Or.inl ⟨rfl, rfl, rfl, rfl⟩

/-! ### Claim C2 -/

/-- C2: for every track_id already in the counted set, a later frame's
per-detection loop body for that id changes neither `in_counts`,
`out_counts`, any per-class `(IN, OUT)` counter, nor the counted set; and
one loop body never introduces a duplicate into the counted set, so each
track_id is gained at most once. -/
theorem counted_at_most_once (s : HeatState) (box : Box) (clsName : String)
    (tid : ℤ) :
    (tid ∈ s.countIds →
       (detStep s box clsName tid).inCounts = s.inCounts ∧
       (detStep s box clsName tid).outCounts = s.outCounts ∧
       (∀ n, classCounts (detStep s box clsName tid).classWise n =
          classCounts s.classWise n) ∧
       (detStep s box clsName tid).countIds = s.countIds) ∧
    (s.countIds.Nodup → (detStep s box clsName tid).countIds.Nodup) := by
  rw [detStep_eq]
  obtain hsh := countStep_counts_shape
      { s with classWise := classInit s.classWise clsName,
               heatmap := diskAdd s.heatmap box } box clsName tid
  constructor
  · intro hmem
    rcases hsh with ⟨h1, h2, h3, h4⟩ | ⟨hnot, _⟩
    · refine ⟨h1, h2, ?_, h4⟩
      intro n
      rw [h3]
      exact classCounts_classInit s.classWise clsName n
    · exact absurd hmem hnot
  · intro hnd
    rcases hsh with ⟨_, _, _, h4⟩ | ⟨hnot, h4⟩
    · rw [h4]; exact hnd
    · rw [h4]
      have hnot' : tid ∉ s.countIds := hnot
      simp [List.nodup_append, hnd, hnot']

/-- A concrete mid-session state with track 4 already counted, used to
instantiate `counted_at_most_once`. -/
def witHeatState : HeatState :=
  { initialized := true, heatmap := [[0, 0], [0, 0]], decayFactor := 99/100,
    countRegPts := some [(0, 0), (10, 0), (10, 10), (0, 10)],
    trackHistory := [(4, [(1, 1)])], inCounts := 1, outCounts := 0,
    countIds := [4], classWise := [("car", (1, 0))] }

theorem counted_at_most_once_witness :
    ((4 : ℤ) ∈ witHeatState.countIds ∧ witHeatState.countIds.Nodup) ∧
    ((detStep witHeatState ⟨0, 0, 2, 2⟩ "car" 4).inCounts = witHeatState.inCounts ∧
     (detStep witHeatState ⟨0, 0, 2, 2⟩ "car" 4).outCounts = witHeatState.outCounts ∧
     (∀ n, classCounts (detStep witHeatState ⟨0, 0, 2, 2⟩ "car" 4).classWise n =
        classCounts witHeatState.classWise n) ∧
     (detStep witHeatState ⟨0, 0, 2, 2⟩ "car" 4).countIds = witHeatState.countIds) ∧
    (detStep witHeatState ⟨0, 0, 2, 2⟩ "car" 4).countIds.Nodup :=
  ⟨⟨by simp [witHeatState], by simp [witHeatState]⟩,
   (counted_at_most_once witHeatState ⟨0, 0, 2, 2⟩ "car" 4).1 (by simp [witHeatState]),
   (counted_at_most_once witHeatState ⟨0, 0, 2, 2⟩ "car" 4).2 (by simp [witHeatState])⟩

/-! ### Claim C8 -/

/-- The invariant `calculate_speed` maintains between calls: a track has
a stored speed only if it is in the finalized set (`spd` is only ever
written in the block that just appended the id to `trkd_ids`). -/
def speedInv (s : SpeedState) : Prop :=
  ∀ i, (alGet s.spd i).isSome → i ∈ s.trkdIds

/-- C8: once a speed value is stored for a track id, no subsequent
`calculate_speed` call (for that id or any other) alters it, and the
invariant tying stored speeds to the finalized set is preserved, so this
holds forever along any sequence of further calls. -/
theorem speed_finalized_once (s : SpeedState) (tid : ℤ) (track : List Pt)
    (now : ℚ) (i : ℤ) (v : ℚ) (hinv : speedInv s)
    (hv : alGet s.spd i = some v) :
    alGet (calculateSpeed s tid track now).1.spd i = some v ∧
    speedInv (calculateSpeed s tid track now).1 := by
  obtain ⟨hspd, hids⟩ := calculateSpeed_shape s tid track now
  have hmemIds : ∀ j, j ∈ s.trkdIds →
      j ∈ (calculateSpeed s tid track now).1.trkdIds := by
    intro j hj
    rcases hids with h | h
    · rw [h]; exact hj
    · rw [h]; exact List.mem_append_left _ hj
  rcases hspd with h | ⟨hnot, hgrow, w, h⟩
  · constructor
    · rw [h]; exact hv
    · intro j hj
      rw [h] at hj
      exact hmemIds j (hinv j hj)
  · have hne : i ≠ tid := by
      intro he
      exact hnot (he ▸ hinv i (by simp [hv]))
    constructor
    · rw [h, alGet_alSet_ne _ _ _ _ hne, hv]
    · intro j hj
      by_cases hji : j = tid
      · subst hji
        rw [hgrow]
        exact List.mem_append_right _ (by simp)
      · rw [h, alGet_alSet_ne _ _ _ _ hji] at hj
        exact hmemIds j (hinv j hj)

/-- A concrete state with a finalized speed for track 3, used to
instantiate `speed_finalized_once`. -/
def witSpeedState : SpeedState :=
  { regPts := [(20, 400), (1260, 400)], spdl := 10, trkHistory := [],
    spd := [(3, 7)], trkdIds := [3], trkPt := [(3, 2)],
    trkPp := [(3, (100, 395))] }

theorem speed_finalized_once_witness :
    (speedInv witSpeedState ∧ alGet witSpeedState.spd 3 = some 7) ∧
    alGet (calculateSpeed witSpeedState 3 [(100, 400)] 5).1.spd 3 = some 7 ∧
    speedInv (calculateSpeed witSpeedState 3 [(100, 400)] 5).1 :=
  have hinv : speedInv witSpeedState := by
    intro i h
    by_cases hi : (3 : ℤ) = i
    · simp [witSpeedState, ← hi]
    · simp [witSpeedState, alGet, hi] at h
  ⟨⟨hinv, by simp [witSpeedState, alGet]⟩,
   speed_finalized_once witSpeedState 3 [(100, 400)] 5 3 7 hinv
     (by simp [witSpeedState, alGet])⟩

/-! ### Claim C9 -/

/-- C9: every history update appends exactly the new centroid at the end,
evicting the oldest entry first (and only) when the capacity of 30 would
be exceeded; the length stays at most 30. -/
theorem history_bound_fifo (l : List Pt) (c : Pt) (h : l.length ≤ 30) :
    (updateHistory l c).length ≤ 30 ∧
    updateHistory l c = (if l.length = 30 then l.tail else l) ++ [c] := by
  unfold updateHistory
  by_cases h30 : l.length = 30
  · have hne : l ≠ [] := by
      intro he
      rw [he] at h30
      simp at h30
    have hcond : (l ++ [c]).length > 30 := by
      simp [h30]
    rw [if_pos hcond, if_pos h30]
    have ht : (l ++ [c]).tail = l.tail ++ [c] := by
      cases l with
      | nil => exact absurd rfl hne
      | cons a t => simp
    rw [ht]
    refine ⟨?_, rfl⟩
    have hlt : l.tail.length = l.length - 1 := List.length_tail l
    simp only [List.length_append, List.length_singleton, hlt, h30]
    omega
  · have hcond : ¬ (l ++ [c]).length > 30 := by
      simp only [List.length_append, List.length_singleton]
      omega
    rw [if_neg hcond, if_neg h30]
    refine ⟨?_, rfl⟩
    simp only [List.length_append, List.length_singleton]
    omega

theorem history_bound_fifo_witness :
    ([((1 : ℚ), (1 : ℚ))] : List Pt).length ≤ 30 ∧
    (updateHistory [(1, 1)] (2, 2)).length ≤ 30 ∧
    updateHistory [(1, 1)] (2, 2) =
      (if ([((1 : ℚ), (1 : ℚ))] : List Pt).length = 30
       then ([((1 : ℚ), (1 : ℚ))] : List Pt).tail
       else [(1, 1)]) ++ [(2, 2)] :=
  ⟨by simp, history_bound_fifo [(1, 1)] (2, 2) (by simp)⟩

/-! ### Claim C1 -/

/-- C1 fails on the code: on any frame carrying at least one tracked
detection, `estimate_speed`'s loop body immediately raises `NameError`
(`track_id` is undefined; the loop variable is `trk_id`), so the entry
point does not return the image. -/
theorem estimate_speed_raises_nameError :
    (estimateSpeed speedEstimatorInit
        (some [(⟨0, 0, 10, 10⟩, "person", 1)])).2 =
      some SpeedErr.nameErrorTrackId := rfl

/-! ### Claim C4 -/

/-- C4 fails on the code: constructing a `Heatmap` with a single region
point prints the configuration warning but then crashes — the fallback
`LineString(self.count_reg_pts)` raises inside shapely for a one-point
coordinate list — instead of disabling counting and continuing. -/
theorem heatmapInit_one_point_raises :
    heatmapInit (some [(0, 0)]) (99 / 100) =
      Except.error HeatErr.lineStringOnePoint := rfl

/-! ### Claim C3 -/

/-- C3 fails on the code: on a frame whose `tracks[0].boxes.id` is `None`
the buffer decay at line 102 does run, but the call then raises
`TypeError` (`zip(None, None)` in the detection-free branch, since
`boxes` and `clss` were never assigned) instead of returning the image. -/
theorem generateHeatmap_no_tracks_raises (s : HeatState) (rows cols : ℕ)
    (h : s.initialized = true) :
    generateHeatmap s rows cols none =
      ({ s with heatmap := decayBuffer s.heatmap s.decayFactor },
       some HeatErr.typeError) := by
  unfold generateHeatmap
  rw [if_pos h]

theorem generateHeatmap_no_tracks_raises_witness :
    witHeatState.initialized = true ∧
    generateHeatmap witHeatState 2 2 none =
      ({ witHeatState with
          heatmap := decayBuffer witHeatState.heatmap witHeatState.decayFactor },
       some HeatErr.typeError) :=
  ⟨rfl, generateHeatmap_no_tracks_raises witHeatState 2 2 rfl⟩

/-! ### Claim C5 -/

/-- A state in which track 1 has a previous sample at time 5 and position
(100, 395), but is not yet finalized. -/
def c5State : SpeedState :=
  { regPts := [(20, 400), (1260, 400)], spdl := 10, trkHistory := [],
    spd := [], trkdIds := [], trkPt := [(1, 5)], trkPp := [(1, (100, 395))] }

/-- C5 counterexample: a Δt = 0 sample for track 1 (inside the x-interval
and the band) is skipped silently with no speed stored — but the next
frame's sample, although fully qualifying (x-interval, band, Δt = 1 > 0),
still computes no speed, because the Δt ≤ 0 call had already appended the
track to the finalized set. The track does not "remain eligible". -/
theorem dt_retry_claim_counterexample :
    (calculateSpeed c5State 1 [(100, 400)] 5).2 = none ∧
    alGet (calculateSpeed c5State 1 [(100, 400)] 5).1.spd 1 = none ∧
    (1 : ℤ) ∈ (calculateSpeed c5State 1 [(100, 400)] 5).1.trkdIds ∧
    (calculateSpeed (calculateSpeed c5State 1 [(100, 400)] 5).1
        1 [(100, 406)] 6).2 = none ∧
    alGet (calculateSpeed (calculateSpeed c5State 1 [(100, 400)] 5).1
        1 [(100, 406)] 6).1.spd 1 = none := by
  norm_num [c5State, calculateSpeed, inXInterval, dirKnown, alGet, alSet]

/-- C5 amended: a sample with Δt ≤ 0 is indeed skipped silently — no
speed is stored and nothing is raised, and `trk_pt`/`trk_pp` are
refreshed — but the track id is nevertheless appended to the finalized
set `trkd_ids` (line 66 precedes the Δt check at line 69), so no later
sample ever computes a speed for that track. -/
theorem dt_nonpos_skips_but_finalizes (s : SpeedState) (tid : ℤ)
    (track : List Pt) (now t0 : ℚ) (p0 p1 : Pt) (rest : List Pt) (last : Pt)
    (hreg : s.regPts = p0 :: p1 :: rest)
    (hlast : track.getLast? = some last)
    (hx : inXInterval p0 p1 last)
    (hband : dirKnown p0 p1 s.spdl last)
    (hpt : alGet s.trkPt tid = some t0) (ht0 : t0 ≠ 0)
    (hnew : tid ∉ s.trkdIds)
    (hdt : now - t0 ≤ 0) :
    (calculateSpeed s tid track now).2 = none ∧
    (calculateSpeed s tid track now).1.spd = s.spd ∧
    (calculateSpeed s tid track now).1.trkdIds = s.trkdIds ++ [tid] ∧
    alGet (calculateSpeed s tid track now).1.trkPt tid = some now ∧
    alGet (calculateSpeed s tid track now).1.trkPp tid = some last := by
  unfold calculateSpeed
  rw [hlast, hreg]
  dsimp only
  rw [if_neg (not_not_intro hx)]
  have hg : alGet s.trkPt tid ≠ some 0 ∧ dirKnown p0 p1 s.spdl last ∧
      tid ∉ s.trkdIds := by
    refine ⟨?_, hband, hnew⟩
    rw [hpt]
    intro he
    exact ht0 (Option.some.inj he)
  rw [if_pos hg]
  rw [hpt]
  dsimp only
  rw [if_neg (not_lt.mpr hdt)]
  exact ⟨rfl, rfl, rfl, alGet_alSet_self _ _ _, alGet_alSet_self _ _ _⟩

theorem dt_nonpos_skips_but_finalizes_witness :
    (c5State.regPts = (20, 400) :: (1260, 400) :: [] ∧
     ([((100 : ℚ), (400 : ℚ))] : List Pt).getLast? = some (100, 400) ∧
     inXInterval (20, 400) (1260, 400) (100, 400) ∧
     dirKnown (20, 400) (1260, 400) c5State.spdl (100, 400) ∧
     alGet c5State.trkPt 1 = some 5 ∧ (5 : ℚ) ≠ 0 ∧
     (1 : ℤ) ∉ c5State.trkdIds ∧ (5 : ℚ) - 5 ≤ 0) ∧
    ((calculateSpeed c5State 1 [(100, 400)] 5).2 = none ∧
     (calculateSpeed c5State 1 [(100, 400)] 5).1.spd = c5State.spd ∧
     (calculateSpeed c5State 1 [(100, 400)] 5).1.trkdIds =
       c5State.trkdIds ++ [1] ∧
     alGet (calculateSpeed c5State 1 [(100, 400)] 5).1.trkPt 1 = some 5 ∧
     alGet (calculateSpeed c5State 1 [(100, 400)] 5).1.trkPp 1 =
       some (100, 400)) :=
  ⟨⟨rfl, rfl, by norm_num [inXInterval], by norm_num [dirKnown, c5State],
    by norm_num [c5State, alGet], by norm_num, by simp [c5State], by norm_num⟩,
   dt_nonpos_skips_but_finalizes c5State 1 [(100, 400)] 5 5
     (20, 400) (1260, 400) [] (100, 400) rfl rfl
     (by norm_num [inXInterval]) (by norm_num [dirKnown, c5State])
     (by norm_num [c5State, alGet]) (by norm_num) (by simp [c5State])
     (by norm_num)⟩

/-! ### Claim C10 -/

/-- C10 counterexample: calling `calculate_speed` directly on a fresh
estimator (default region, empty `trk_pt`/`trk_pp`) with a latest point
inside the x-interval and the band does append the id and does raise a
`KeyError` — but the failing read is `self.trk_pt[trk_id]` at line 68
(evaluated while computing `time_difference`), not `self.trk_pp[trk_id]`
at line 70 as the claim states: execution never reaches the `trk_pp`
read. -/
theorem warmup_keyerror_claim_counterexample :
    (calculateSpeed speedEstimatorInit 1 [(100, 400)] 7).2 =
      some SpeedErr.keyErrorTrkPt ∧
    (calculateSpeed speedEstimatorInit 1 [(100, 400)] 7).2 ≠
      some SpeedErr.keyErrorTrkPp ∧
    (1 : ℤ) ∈ (calculateSpeed speedEstimatorInit 1 [(100, 400)] 7).1.trkdIds := by
  norm_num [speedEstimatorInit, calculateSpeed, inXInterval, dirKnown, alGet]
  simp

/-- C10 amended: with no `trk_pt`/`trk_pp` entry for the id, a latest x
strictly between the region x-coordinates and a latest y within the band,
the guard `trk_pt.get(trk_id) != 0` passes (`None != 0`), the id is
appended to the finalized set, and the read of `trk_pt[trk_id]` at line
68 fails with a `KeyError` instead of being a silent warm-up no-op. -/
theorem warmup_keyerror_at_trkPt (s : SpeedState) (tid : ℤ) (track : List Pt)
    (now : ℚ) (p0 p1 : Pt) (rest : List Pt) (last : Pt)
    (hreg : s.regPts = p0 :: p1 :: rest)
    (hlast : track.getLast? = some last)
    (hx : inXInterval p0 p1 last)
    (hband : dirKnown p0 p1 s.spdl last)
    (hpt : alGet s.trkPt tid = none)
    (hnew : tid ∉ s.trkdIds) :
    (calculateSpeed s tid track now).2 = some SpeedErr.keyErrorTrkPt ∧
    (calculateSpeed s tid track now).1.trkdIds = s.trkdIds ++ [tid] := by
  unfold calculateSpeed
  rw [hlast, hreg]
  dsimp only
  rw [if_neg (not_not_intro hx)]
  have hg : alGet s.trkPt tid ≠ some 0 ∧ dirKnown p0 p1 s.spdl last ∧
      tid ∉ s.trkdIds := by
    refine ⟨?_, hband, hnew⟩
    rw [hpt]
    exact fun he => Option.noConfusion he
  rw [if_pos hg]
  rw [hpt]
  exact ⟨rfl, rfl⟩

theorem warmup_keyerror_at_trkPt_witness :
    (speedEstimatorInit.regPts = (20, 400) :: (1260, 400) :: [] ∧
     ([((100 : ℚ), (400 : ℚ))] : List Pt).getLast? = some (100, 400) ∧
     inXInterval (20, 400) (1260, 400) (100, 400) ∧
     dirKnown (20, 400) (1260, 400) speedEstimatorInit.spdl (100, 400) ∧
     alGet speedEstimatorInit.trkPt 1 = none ∧
     (1 : ℤ) ∉ speedEstimatorInit.trkdIds) ∧
    ((calculateSpeed speedEstimatorInit 1 [(100, 400)] 9).2 =
       some SpeedErr.keyErrorTrkPt ∧
     (calculateSpeed speedEstimatorInit 1 [(100, 400)] 9).1.trkdIds =
       speedEstimatorInit.trkdIds ++ [1]) :=
  ⟨⟨rfl, rfl, by norm_num [inXInterval],
    by norm_num [dirKnown, speedEstimatorInit], rfl, by simp [speedEstimatorInit]⟩,
   warmup_keyerror_at_trkPt speedEstimatorInit 1 [(100, 400)] 9
     (20, 400) (1260, 400) [] (100, 400) rfl rfl
     (by norm_num [inXInterval]) (by norm_num [dirKnown, speedEstimatorInit])
     rfl (by simp [speedEstimatorInit])⟩

/-- Behaviour of `countStep` on a qualifying polygon-mode crossing:
the direction sign `(box[0] - prev.x) * (centroid.x - prev.x)` selects
between the IN and OUT updates, and the id is appended either way. -/
theorem countStep_poly_spec (s : HeatState) (box : Box) (clsName : String)
    (tid : ℤ) (pts : List Pt) (prev : Pt)
    (hr : s.countRegPts = some pts) (h3 : 3 ≤ pts.length)
    (hprev : prevPosition s box tid = some prev)
    (hin : pointInPoly pts (boxCenterF box) = true)
    (hnew : tid ∉ s.countIds) :
    (0 < (box.x1 - prev.1) * (regionCentroidX pts - prev.1) →
       (countStep s box clsName tid).inCounts = s.inCounts + 1 ∧
       (countStep s box clsName tid).outCounts = s.outCounts ∧
       (countStep s box clsName tid).classWise = bumpIn s.classWise clsName ∧
       (countStep s box clsName tid).countIds = s.countIds ++ [tid]) ∧
    ((box.x1 - prev.1) * (regionCentroidX pts - prev.1) ≤ 0 →
       (countStep s box clsName tid).outCounts = s.outCounts + 1 ∧
       (countStep s box clsName tid).inCounts = s.inCounts ∧
       (countStep s box clsName tid).classWise = bumpOut s.classWise clsName ∧
       (countStep s box clsName tid).countIds = s.countIds ++ [tid]) := by
  unfold countStep
  rw [hr]
  dsimp only
  rw [if_pos h3, hprev]
  dsimp only
  rw [updateHistory_getLast]
  dsimp only [Option.getD_some]
  rw [if_pos ⟨hin, hnew⟩]
  constructor
  · intro hd
    rw [if_pos hd]
    exact ⟨rfl, rfl, rfl, rfl⟩
  · intro hd
    rw [if_neg (not_lt.mpr hd)]
    exact ⟨rfl, rfl, rfl, rfl⟩

/-- Behaviour of `countStep` in line mode for a not-yet-counted track
with a previous position: the count is recorded exactly when the segment
from the previous recorded centroid to the current box's `(x1, y1)`
corner intersects the counting line, with the same direction sign rule. -/
theorem countStep_line_spec (s : HeatState) (box : Box) (clsName : String)
    (tid : ℤ) (p0 p1 : Pt) (prev : Pt)
    (hr : s.countRegPts = some [p0, p1])
    (hprev : prevPosition s box tid = some prev)
    (hnew : tid ∉ s.countIds) :
    (segIntersects prev (box.x1, box.y1) p0 p1 = true →
       (0 < (box.x1 - prev.1) * (regionCentroidX [p0, p1] - prev.1) →
          (countStep s box clsName tid).inCounts = s.inCounts + 1 ∧
          (countStep s box clsName tid).outCounts = s.outCounts ∧
          (countStep s box clsName tid).classWise = bumpIn s.classWise clsName ∧
          (countStep s box clsName tid).countIds = s.countIds ++ [tid]) ∧
       ((box.x1 - prev.1) * (regionCentroidX [p0, p1] - prev.1) ≤ 0 →
          (countStep s box clsName tid).outCounts = s.outCounts + 1 ∧
          (countStep s box clsName tid).inCounts = s.inCounts ∧
          (countStep s box clsName tid).classWise = bumpOut s.classWise clsName ∧
          (countStep s box clsName tid).countIds = s.countIds ++ [tid])) ∧
    (segIntersects prev (box.x1, box.y1) p0 p1 = false →
       (countStep s box clsName tid).countIds = s.countIds ∧
       (countStep s box clsName tid).inCounts = s.inCounts ∧
       (countStep s box clsName tid).outCounts = s.outCounts ∧
       (countStep s box clsName tid).classWise = s.classWise) := by
  unfold countStep
  rw [hr]
  dsimp only
  rw [if_neg (by norm_num : ¬ 3 ≤ ([p0, p1] : List Pt).length)]
  rw [hprev]
  dsimp only
  rw [if_pos hnew]
  constructor
  · intro hseg
    rw [if_pos hseg]
    constructor
    · intro hd
      rw [if_pos hd]
      exact ⟨rfl, rfl, rfl, rfl⟩
    · intro hd
      rw [if_neg (not_lt.mpr hd)]
      exact ⟨rfl, rfl, rfl, rfl⟩
  · intro hseg
    rw [if_neg (by simp [hseg])]
    exact ⟨rfl, rfl, rfl, rfl⟩

/-! ### Claim C6 -/

/-- The polygon-mode session used to refute the direction claim: square
region with centroid (5, 5); track 7's previous recorded position is
(3, -5). -/
def c6State : HeatState :=
  { initialized := true, heatmap := [], decayFactor := 99 / 100,
    countRegPts := some [(0, 0), (10, 0), (10, 10), (0, 10)],
    trackHistory := [(7, [(3, -5)])], inCounts := 0, outCounts := 0,
    countIds := [], classWise := [] }

/-- C6 counterexample: for the qualifying polygon crossing of box
(2, 4, 8, 6) — current recorded position (5, 5) inside the square, track
not yet counted — the claim's sign
`(current.x - previous.x) * (centroid.x - previous.x)` with `current` the
current recorded position is `(5-3)*(5-3) = 4 > 0`, so the claim mandates
an IN count; the code instead uses `box[0] = 2`, gets `(2-3)*(5-3) < 0`,
and increments OUT. -/
theorem direction_claim_counterexample :
    prevPosition c6State ⟨2, 4, 8, 6⟩ 7 = some (3, -5) ∧
    pointInPoly [(0, 0), (10, 0), (10, 10), (0, 10)]
      (boxCenterF ⟨2, 4, 8, 6⟩) = true ∧
    (7 : ℤ) ∉ c6State.countIds ∧
    0 < ((boxCenterF ⟨2, 4, 8, 6⟩).1 - 3) *
        (regionCentroidX [(0, 0), (10, 0), (10, 10), (0, 10)] - 3) ∧
    (detStep c6State ⟨2, 4, 8, 6⟩ "car" 7).inCounts = 0 ∧
    (detStep c6State ⟨2, 4, 8, 6⟩ "car" 7).outCounts = 1 := by
  norm_num [c6State, detStep, countStep, prevPosition, histOf, updateHistory,
    boxCenterF, alGet, alSet, classInit, bumpOut, diskAdd, pointInPoly,
    pipCross, regionCentroidX, polyCentroidX, shoelace, List.rotate]

/-- C6 amended: for every qualifying crossing in both polygon and line
mode, the direction is classified by the sign of
`(box[0].x - previous.x) * (region_centroid.x - previous.x)` — the
current endpoint of the sign rule is the current box's left-x coordinate
`box[0]`, not the current recorded position; strictly positive increments
the global and per-class IN counters, otherwise OUT. -/
theorem direction_sign_uses_box_leftx (s : HeatState) (box : Box)
    (clsName : String) (tid : ℤ) (pts : List Pt) (prev : Pt)
    (hr : s.countRegPts = some pts)
    (hprev : prevPosition s box tid = some prev)
    (hnew : tid ∉ s.countIds)
    (hqual : (3 ≤ pts.length ∧ pointInPoly pts (boxCenterF box) = true) ∨
             (∃ p0 p1, pts = [p0, p1] ∧
                segIntersects prev (box.x1, box.y1) p0 p1 = true)) :
    (0 < (box.x1 - prev.1) * (regionCentroidX pts - prev.1) →
       (detStep s box clsName tid).inCounts = s.inCounts + 1 ∧
       (detStep s box clsName tid).outCounts = s.outCounts ∧
       classCounts (detStep s box clsName tid).classWise clsName =
         ((classCounts s.classWise clsName).1 + 1,
          (classCounts s.classWise clsName).2)) ∧
    ((box.x1 - prev.1) * (regionCentroidX pts - prev.1) ≤ 0 →
       (detStep s box clsName tid).outCounts = s.outCounts + 1 ∧
       (detStep s box clsName tid).inCounts = s.inCounts ∧
       classCounts (detStep s box clsName tid).classWise clsName =
         ((classCounts s.classWise clsName).1,
          (classCounts s.classWise clsName).2 + 1)) := by
  rw [detStep_eq]
  rcases hqual with ⟨h3, hin⟩ | ⟨p0, p1, hpts, hseg⟩
  · obtain ⟨hpos, hneg⟩ := countStep_poly_spec
        { s with classWise := classInit s.classWise clsName,
                 heatmap := diskAdd s.heatmap box } box clsName tid pts prev
        hr h3 hprev hin hnew
    constructor
    · intro hd
      obtain ⟨e1, e2, e3, _⟩ := hpos hd
      refine ⟨e1, e2, ?_⟩
      rw [e3]
      exact classCounts_bumpIn _ _ _ (alGet_classInit_self s.classWise clsName)
    · intro hd
      obtain ⟨e1, e2, e3, _⟩ := hneg hd
      refine ⟨e1, e2, ?_⟩
      rw [e3]
      exact classCounts_bumpOut _ _ _ (alGet_classInit_self s.classWise clsName)
  · subst hpts
    obtain ⟨hcross, _⟩ := countStep_line_spec
        { s with classWise := classInit s.classWise clsName,
                 heatmap := diskAdd s.heatmap box } box clsName tid p0 p1 prev
        hr hprev hnew
    obtain ⟨hpos, hneg⟩ := hcross hseg
    constructor
    · intro hd
      obtain ⟨e1, e2, e3, _⟩ := hpos hd
      refine ⟨e1, e2, ?_⟩
      rw [e3]
      exact classCounts_bumpIn _ _ _ (alGet_classInit_self s.classWise clsName)
    · intro hd
      obtain ⟨e1, e2, e3, _⟩ := hneg hd
      refine ⟨e1, e2, ?_⟩
      rw [e3]
      exact classCounts_bumpOut _ _ _ (alGet_classInit_self s.classWise clsName)

theorem direction_sign_uses_box_leftx_witness :
    (c6State.countRegPts = some [(0, 0), (10, 0), (10, 10), (0, 10)] ∧
     prevPosition c6State ⟨2, 4, 8, 6⟩ 7 = some (3, -5) ∧
     (7 : ℤ) ∉ c6State.countIds ∧
     3 ≤ ([((0 : ℚ), (0 : ℚ)), (10, 0), (10, 10), (0, 10)] : List Pt).length ∧
     pointInPoly [(0, 0), (10, 0), (10, 10), (0, 10)]
       (boxCenterF ⟨2, 4, 8, 6⟩) = true) ∧
    ((0 : ℚ) <
       ((⟨2, 4, 8, 6⟩ : Box).x1 - (3 : ℚ)) *
         (regionCentroidX [(0, 0), (10, 0), (10, 10), (0, 10)] - 3) →
       (detStep c6State ⟨2, 4, 8, 6⟩ "car" 7).inCounts = c6State.inCounts + 1 ∧
       (detStep c6State ⟨2, 4, 8, 6⟩ "car" 7).outCounts = c6State.outCounts ∧
       classCounts (detStep c6State ⟨2, 4, 8, 6⟩ "car" 7).classWise "car" =
         ((classCounts c6State.classWise "car").1 + 1,
          (classCounts c6State.classWise "car").2)) ∧
    (((⟨2, 4, 8, 6⟩ : Box).x1 - (3 : ℚ)) *
         (regionCentroidX [(0, 0), (10, 0), (10, 10), (0, 10)] - 3) ≤ 0 →
       (detStep c6State ⟨2, 4, 8, 6⟩ "car" 7).outCounts = c6State.outCounts + 1 ∧
       (detStep c6State ⟨2, 4, 8, 6⟩ "car" 7).inCounts = c6State.inCounts ∧
       classCounts (detStep c6State ⟨2, 4, 8, 6⟩ "car" 7).classWise "car" =
         ((classCounts c6State.classWise "car").1,
          (classCounts c6State.classWise "car").2 + 1)) :=
  ⟨⟨rfl,
    by norm_num [c6State, prevPosition, histOf, updateHistory, boxCenterF, alGet],
    by simp [c6State],
    by norm_num,
    by norm_num [pointInPoly, pipCross, boxCenterF, List.rotate]⟩,
   direction_sign_uses_box_leftx c6State ⟨2, 4, 8, 6⟩ "car" 7
     [(0, 0), (10, 0), (10, 10), (0, 10)] (3, -5) rfl
     (by norm_num [c6State, prevPosition, histOf, updateHistory, boxCenterF, alGet])
     (by simp [c6State])
     (Or.inl ⟨by norm_num,
       by norm_num [pointInPoly, pipCross, boxCenterF, List.rotate]⟩)⟩

/-! ### Claim C7 -/

/-- A line-mode session with counting line from (3, 10) to (10, 10) and
no tracks seen yet, used to refute the segment-endpoint claim. -/
def c7State : HeatState :=
  { initialized := true, heatmap := [], decayFactor := 99 / 100,
    countRegPts := some [(3, 10), (10, 10)],
    trackHistory := [], inCounts := 0, outCounts := 0,
    countIds := [], classWise := [] }

/-- C7 counterexample: track 5 appears in frame 1 with box (2, 0, 10, 4)
(corner (2, 0), centroid (6, 2)) and in frame 2 with box (2, 16, 10, 20)
(corner (2, 16)). The claim's movement segment — both endpoints taken as
the box[0] corner, (2, 0) → (2, 16) — does not intersect the counting
line from (3, 10) to (10, 10), so under the claim no count is recorded;
yet the code records exactly one count, because its segment runs from the
previous recorded centroid (6, 2) to the current corner (2, 16), which
does intersect the line. -/
theorem line_anchor_claim_counterexample :
    segIntersects (2, 0) (2, 16) (3, 10) (10, 10) = false ∧
    segIntersects (6, 2) (2, 16) (3, 10) (10, 10) = true ∧
    (detStep (detStep c7State ⟨2, 0, 10, 4⟩ "car" 5) ⟨2, 16, 10, 20⟩ "car" 5).countIds
      = [5] ∧
    (detStep (detStep c7State ⟨2, 0, 10, 4⟩ "car" 5) ⟨2, 16, 10, 20⟩ "car" 5).inCounts +
      (detStep (detStep c7State ⟨2, 0, 10, 4⟩ "car" 5) ⟨2, 16, 10, 20⟩ "car" 5).outCounts
      = 1 := by
  norm_num [c7State, detStep, countStep, prevPosition, histOf, updateHistory,
    boxCenterF, alGet, alSet, classInit, bumpIn, bumpOut, diskAdd,
    segIntersects, cross, sgn, onSeg, regionCentroidX]

/-- C7 amended: in line mode, for a detection whose updated track history
has length ≥ 2 (previous position defined) and a not-yet-counted id, the
crossing test intersects the stored counting line with the movement
segment from the *previous recorded centroid* to the current box's
`(box[0], box[1])` corner (only the current endpoint is the box corner);
if that segment intersects, the id is counted, else nothing changes. -/
theorem line_mode_anchor_crossing (s : HeatState) (box : Box)
    (clsName : String) (tid : ℤ) (p0 p1 : Pt) (prev : Pt)
    (hr : s.countRegPts = some [p0, p1])
    (hprev : prevPosition s box tid = some prev)
    (hnew : tid ∉ s.countIds) :
    (segIntersects prev (box.x1, box.y1) p0 p1 = true →
       (detStep s box clsName tid).countIds = s.countIds ++ [tid]) ∧
    (segIntersects prev (box.x1, box.y1) p0 p1 = false →
       (detStep s box clsName tid).countIds = s.countIds ∧
       (detStep s box clsName tid).inCounts = s.inCounts ∧
       (detStep s box clsName tid).outCounts = s.outCounts) := by
  rw [detStep_eq]
  obtain ⟨hcross, hmiss⟩ := countStep_line_spec
      { s with classWise := classInit s.classWise clsName,
               heatmap := diskAdd s.heatmap box } box clsName tid p0 p1 prev
      hr hprev hnew
  constructor
  · intro hseg
    obtain ⟨hpos, hneg⟩ := hcross hseg
    rcases lt_or_le 0 ((box.x1 - prev.1) * (regionCentroidX [p0, p1] - prev.1))
      with hd | hd
    · exact (hpos hd).2.2.2
    · exact (hneg hd).2.2.2
  · intro hseg
    obtain ⟨e1, e2, e3, _⟩ := hmiss hseg
    exact ⟨e1, e2, e3⟩

theorem line_mode_anchor_crossing_witness :
    (c7State.countRegPts = some [(3, 10), (10, 10)] ∧
     prevPosition c7State ⟨2, 16, 10, 20⟩ 5 = none ∧
     prevPosition (detStep c7State ⟨2, 0, 10, 4⟩ "car" 5) ⟨2, 16, 10, 20⟩ 5 =
       some (6, 2) ∧
     (5 : ℤ) ∉ (detStep c7State ⟨2, 0, 10, 4⟩ "car" 5).countIds) ∧
    (segIntersects (6, 2) ((⟨2, 16, 10, 20⟩ : Box).x1, (⟨2, 16, 10, 20⟩ : Box).y1)
        (3, 10) (10, 10) = true →
      (detStep (detStep c7State ⟨2, 0, 10, 4⟩ "car" 5) ⟨2, 16, 10, 20⟩ "car" 5).countIds
        = (detStep c7State ⟨2, 0, 10, 4⟩ "car" 5).countIds ++ [5]) ∧
    (segIntersects (6, 2) ((⟨2, 16, 10, 20⟩ : Box).x1, (⟨2, 16, 10, 20⟩ : Box).y1)
        (3, 10) (10, 10) = false →
      (detStep (detStep c7State ⟨2, 0, 10, 4⟩ "car" 5) ⟨2, 16, 10, 20⟩ "car" 5).countIds
        = (detStep c7State ⟨2, 0, 10, 4⟩ "car" 5).countIds ∧
      (detStep (detStep c7State ⟨2, 0, 10, 4⟩ "car" 5) ⟨2, 16, 10, 20⟩ "car" 5).inCounts
        = (detStep c7State ⟨2, 0, 10, 4⟩ "car" 5).inCounts ∧
      (detStep (detStep c7State ⟨2, 0, 10, 4⟩ "car" 5) ⟨2, 16, 10, 20⟩ "car" 5).outCounts
        = (detStep c7State ⟨2, 0, 10, 4⟩ "car" 5).outCounts) :=
  ⟨⟨rfl,
    by norm_num [c7State, prevPosition, histOf, updateHistory, boxCenterF, alGet],
    by norm_num [c7State, detStep, countStep, prevPosition, histOf,
      updateHistory, boxCenterF, alGet, alSet, classInit, diskAdd,
      segIntersects, cross, sgn, onSeg, regionCentroidX],
    by norm_num [c7State, detStep, countStep, prevPosition, histOf,
      updateHistory, boxCenterF, alGet, alSet, classInit, diskAdd,
      segIntersects, cross, sgn, onSeg, regionCentroidX]⟩,
   line_mode_anchor_crossing (detStep c7State ⟨2, 0, 10, 4⟩ "car" 5)
     ⟨2, 16, 10, 20⟩ "car" 5 (3, 10) (10, 10) (6, 2)
     (by norm_num [c7State, detStep, countStep, prevPosition, histOf,
       updateHistory, boxCenterF, alGet, alSet, classInit, diskAdd,
       segIntersects, cross, sgn, onSeg, regionCentroidX])
     (by norm_num [c7State, detStep, countStep, prevPosition, histOf,
       updateHistory, boxCenterF, alGet, alSet, classInit, diskAdd,
       segIntersects, cross, sgn, onSeg, regionCentroidX])
     (by norm_num [c7State, detStep, countStep, prevPosition, histOf,
       updateHistory, boxCenterF, alGet, alSet, classInit, diskAdd,
       segIntersects, cross, sgn, onSeg, regionCentroidX])⟩

end YoloAPD
